import Mathlib

/-!
Verification of the digger authorization-and-serialization control path.

Shallow embedding of:
  - src/unnamed/part_000 (Go package `policy`): `NoOpPolicyChecker.Check`,
    `DiggerHttpPolicyProvider.GetPolicy` and `DiggerPolicyChecker.Check`;
  - src/pkg/gitlab/gitlab.go: `ConvertGitLabEventToCommands` and
    `RunCommandsPerProject`.

External collaborators (HTTP transport, the rego engine, the CI service,
the lock store and the IaC executor) are abstracted as explicit inputs:
each embedded function receives the outcomes those collaborators would
return, and the function body mirrors the Go control flow over them.
-/

/-! ## Policy layer (src/unnamed/part_000) -/

/-- One value of the rego engine's expression results (`expression.Value`
in the source). The source only distinguishes boolean values from
everything else (`expression.Value.(bool)`), so the embedding does too. -/
inductive RegoValue where
  | bool (b : Bool)
  | nonBoolean
  deriving DecidableEq, Repr

/-- Whether a rego expression value is a boolean (the `ok` of the Go type
assertion `expression.Value.(bool)`). -/
def RegoValue.isBool : RegoValue → Bool
  | .bool _ => true
  | .nonBoolean => false

/-- Outcome of one HTTP policy fetch as observed by `GetPolicy`
(lines 80 and 87 of src/unnamed/part_000): either the transport failed
(`HttpClient.Do` or request construction returned an error), or a response
with a status code and a body arrived. A body-read failure is swallowed by
the source (`getPolicyForNamespace` line 72 returns `("", resp, nil)`), so
it is observationally a response with an empty body and needs no extra
constructor. -/
inductive FetchResult where
  | transportError (msg : String)
  | response (status : Nat) (body : String)
  deriving DecidableEq, Repr

/-- `NoOpPolicyChecker.Check` (src/unnamed/part_000 lines 28-30): ignores
all five arguments and returns `(true, nil)`. Errors are modelled as
`Option String` (`none` = Go `nil`). -/
def NoOpPolicyChecker.Check (_organisation _nspace _project _command _requester : String) :
    Bool × Option String :=
  (true, none)

/-- `DiggerHttpPolicyProvider.GetPolicy` (src/unnamed/part_000 lines
79-101), as a function of the outcome of the project-scoped fetch
(`getPolicyForNamespace`) and of the organisation-scoped fetch
(`getPolicyForOrganisation`). In the source the organisation fetch is only
performed inside the 404 branch; here it is a parameter, and the branches
that do not consult it are independent of its value. URL construction and
the namespace separator normalization (line 56) happen below this
interface and are not observable in the returned pair. -/
def DiggerHttpPolicyProvider.GetPolicy (projFetch orgFetch : FetchResult) :
    String × Option String :=
  match projFetch with
  | .transportError e => ("", some e)
  | .response status content =>
    if status = 200 then
      (content, none)
    else if status = 404 then
      match orgFetch with
      | .transportError e => ("", some e)
      | .response ostatus ocontent =>
        if ostatus = 200 then
          (ocontent, none)
        else if ostatus = 404 then
          ("", none)
        else
          ("", some ("unexpected response while fetching organisation policy: "
            ++ ocontent ++ ", code " ++ toString ostatus))
    else
      ("", some ("unexpected response while fetching org policy: "
        ++ content ++ " code " ++ toString status))

/-- The loop over `results[0].Expressions` (src/unnamed/part_000 lines
147-157): a non-boolean value is an error, a boolean `false` is a plain
denial, and a list of only `true`s is a grant. -/
def regoExpressionsDecision : List RegoValue → Bool × Option String
  | [] => (true, none)
  | .bool true :: rest => regoExpressionsDecision rest
  | .bool false :: _ => (false, none)
  | .nonBoolean :: _ => (false, some "decision is not a boolean")

/-- Lines 141-157 of src/unnamed/part_000: `query.Eval` returns a list of
results each carrying a list of expression values; if there are no results
or the first result has no expressions the decision is an error, otherwise
the first result's expressions are scanned. (The error value returned by
`Eval` itself is assigned at line 140 but never checked by the source.) -/
def regoResultsDecision (results : List (List RegoValue)) : Bool × Option String :=
  match results with
  | [] => (false, some "no result found")
  | exprs :: _ =>
    if exprs = [] then (false, some "no result found")
    else regoExpressionsDecision exprs

/-- `DiggerPolicyChecker.Check` (src/unnamed/part_000 lines 108-158), as a
function of the request facts and of the collaborator outcomes:
`getPolicyRes` is the `(string, error)` pair returned by
`PolicyProvider.GetPolicy`, `getUserTeamsRes` the pair returned by
`ciService.GetUserTeams`, `prepareRes` the error (if any) of
`rego.New(...).PrepareForEval`, and `evalResults` the results of
`query.Eval`. Faithful to the source: the error component of the GetPolicy
result is never read, because at line 110 the source assigns `err` from
`GetPolicy` and at line 111 immediately reassigns it from `GetUserTeams`
before the only `err != nil` check at line 112 — the policy-fetch error is
dropped and only the policy string (empty on failure) survives. The five
fact arguments only feed the engine's input document in the source and do
not affect control flow here, where the engine outcome is a parameter. -/
def DiggerPolicyChecker.Check (_githubOrganisation _nspace _projectName _command _requestedBy : String)
    (getPolicyRes : String × Option String)
    (getUserTeamsRes : List String × Option String)
    (prepareRes : Option String)
    (evalResults : List (List RegoValue)) : Bool × Option String :=
  let policy := getPolicyRes.1
  match getUserTeamsRes.2 with
  | some e => (false, some e)
  | none =>
    if policy = "" then
      (true, none)
    else
      match prepareRes with
      | some e => (false, some e)
      | none => regoResultsDecision evalResults

/-! ## Event router and orchestrator (src/pkg/gitlab/gitlab.go) -/

/-- `digger.WorkflowConfiguration`: the per-stage command lists consumed
by `ConvertGitLabEventToCommands`. -/
structure WorkflowConfiguration where
  onCommitToDefault : List String
  onPullRequestPushed : List String
  onPullRequestClosed : List String
  deriving DecidableEq, Repr

/-- `digger.Project`: the fields of an impacted project that
`ConvertGitLabEventToCommands` reads. -/
structure Project where
  name : String
  dir : String
  workspace : String
  terragrunt : Bool
  workflowConfiguration : WorkflowConfiguration
  deriving DecidableEq, Repr

/-- `digger.ProjectCommand` as built in src/pkg/gitlab/gitlab.go. -/
structure ProjectCommand where
  projectName : String
  projectDir : String
  projectWorkspace : String
  terragrunt : Bool
  commands : List String
  deriving DecidableEq, Repr

/-- Event type constant (src/pkg/gitlab/gitlab.go line 131). The Go
`GitLabEventType` is a string type, so the embedding uses `String`. -/
def MergeRequestOpened : String := "merge_request_opened"

/-- Event type constant (line 132). -/
def MergeRequestUpdated : String := "merge_request_updated"

/-- Event type constant (line 133). -/
def MergeRequestClosed : String := "merge_request_closed"

/-- Event type constant (line 134). -/
def MergeRequestComment : String := "merge_request_commented"

/-- The fixed comment vocabulary (src/pkg/gitlab/gitlab.go line 175). -/
def supportedCommands : List String :=
  ["digger plan", "digger apply", "digger unlock", "digger lock"]

/-- `pat` is a prefix of `l` (character comparison, as Go's substring
search compares bytes). -/
def charsPrefix : List Char → List Char → Bool
  | [], _ => true
  | _ :: _, [] => false
  | a :: as, b :: bs => a == b && charsPrefix as bs

/-- `pat` occurs as a contiguous run inside `l`. -/
def charsContain (pat : List Char) : List Char → Bool
  | [] => charsPrefix pat []
  | c :: rest => charsPrefix pat (c :: rest) || charsContain pat rest

/-- Go's `strings.Contains(s, pat)`: substring containment. -/
def strContains (s pat : String) : Bool :=
  charsContain pat.toList s.toList

/-- `ConvertGitLabEventToCommands` (src/pkg/gitlab/gitlab.go lines
137-203), as a function of the event type string, of the comment text the
source reads from `gitLabContext.DiggerCommand`, and of the impacted
projects. Lifecycle events map each project to its stage command list;
a comment event scans the vocabulary in order and, per matched phrase,
appends one single-phrase command per project; any other event type is the
`unsupported GitLab event type` error with an empty command list (the Go
`%v` rendering of the event struct is simplified to the event type string). -/
def ConvertGitLabEventToCommands (eventType diggerCommand : String)
    (impactedProjects : List Project) : List ProjectCommand × Option String :=
  if eventType = MergeRequestOpened then
    (impactedProjects.map fun p =>
      ⟨p.name, p.dir, p.workspace, p.terragrunt, p.workflowConfiguration.onCommitToDefault⟩, none)
  else if eventType = MergeRequestUpdated then
    (impactedProjects.map fun p =>
      ⟨p.name, p.dir, p.workspace, p.terragrunt, p.workflowConfiguration.onPullRequestPushed⟩, none)
  else if eventType = MergeRequestClosed then
    (impactedProjects.map fun p =>
      ⟨p.name, p.dir, p.workspace, p.terragrunt, p.workflowConfiguration.onPullRequestClosed⟩, none)
  else if eventType = MergeRequestComment then
    (supportedCommands.foldl
      (fun acc command =>
        if strContains diggerCommand command then
          acc ++ impactedProjects.map fun p =>
            ⟨p.name, p.dir, p.workspace, p.terragrunt, [command]⟩
        else acc) [], none)
  else
    ([], some ("unsupported GitLab event type: " ++ eventType))

/-- Observable steps of one `RunCommandsPerProject` run. The executor
calls (`diggerExecutor.Plan/Apply/Unlock/Lock`, src/pkg/gitlab/gitlab.go
lines 229-242) are recorded as events; `authCheck` is in the vocabulary so
that the presence or absence of an authorization step is expressible, the
embedded orchestrator itself never emits it because the source contains no
authorization call. -/
inductive OrchEvent where
  | authCheck (projectName command : String)
  | plan (projectName : String)
  | apply (projectName : String)
  | unlock (projectName : String)
  | lockAttempt (projectName : String) (success : Bool)
  deriving DecidableEq, Repr

/-- Whether an event is an authorization check. -/
def OrchEvent.isAuthCheck : OrchEvent → Bool
  | .authCheck _ _ => true
  | _ => false

/-- Running state of the orchestrator loop: the emitted events, the
`lockAcquisitionSuccess` flag (gitlab.go line 207) and how many
`digger lock` acquisitions have been attempted so far (used to index the
lock-store oracle). -/
structure OrchState where
  events : List OrchEvent
  lockAcquisitionSuccess : Bool
  locksAttempted : Nat
  deriving Repr

/-- The body of the inner loop of `RunCommandsPerProject` (gitlab.go lines
229-242): dispatch on the command string. `digger plan`, `digger apply`
and `digger unlock` delegate to the executor; `digger lock` assigns the
result of `diggerExecutor.Lock` — supplied by the `oracle`, indexed by the
number of earlier attempts, since the lock store is external — to
`lockAcquisitionSuccess`, overwriting the previous value. Any other
string matches no case and does nothing. -/
def runCommand (oracle : Nat → Bool) (projectName command : String)
    (st : OrchState) : OrchState :=
  if command = "digger plan" then
    { st with events := st.events ++ [.plan projectName] }
  else if command = "digger apply" then
    { st with events := st.events ++ [.apply projectName] }
  else if command = "digger unlock" then
    { st with events := st.events ++ [.unlock projectName] }
  else if command = "digger lock" then
    { st with
      events := st.events ++ [.lockAttempt projectName (oracle st.locksAttempted)],
      lockAcquisitionSuccess := oracle st.locksAttempted,
      locksAttempted := st.locksAttempted + 1 }
  else st

/-- `RunCommandsPerProject` (src/pkg/gitlab/gitlab.go lines 205-250):
iterate the project commands, then each command string, threading the
state through `runCommand`. Returns the event trace and the terminal
status: `true` for a successful exit, `false` for the `os.Exit(1)` taken
at line 247 when the final `lockAcquisitionSuccess` is false. -/
def RunCommandsPerProject (oracle : Nat → Bool)
    (commandsPerProject : List ProjectCommand) : List OrchEvent × Bool :=
  let final := commandsPerProject.foldl
    (fun st pc => pc.commands.foldl
      (fun st c => runCommand oracle pc.projectName c st) st)
    ⟨[], true, 0⟩
  (final.events, final.lockAcquisitionSuccess)

/-- The results, in order, of the lock acquisitions recorded in a trace. -/
def lockResults (events : List OrchEvent) : List Bool :=
  events.filterMap fun e =>
    match e with
    | .lockAttempt _ b => some b
    | _ => none

/-- The outcome of the last lock acquisition in a trace, `true` when the
trace holds none (the initial value of the flag). -/
def lastLockOutcome (events : List OrchEvent) : Bool :=
  ((lockResults events).getLast?).getD true

/-! ## Helper lemmas for the engine decision rule -/

/-- The expression scan grants exactly when every value is the boolean
`true`. -/
theorem regoExpressionsDecision_eq_true_iff (l : List RegoValue) :
    regoExpressionsDecision l = (true, none) ↔ ∀ v ∈ l, v = RegoValue.bool true := by
  induction l with
  | nil => simp [regoExpressionsDecision]
  | cons v rest ih =>
    cases v with
    | bool b => cases b <;> simp [regoExpressionsDecision, ih]
    | nonBoolean => simp [regoExpressionsDecision]

/-- When every value is boolean and some value is `false`, the scan is a
plain denial without error. -/
theorem regoExpressionsDecision_all_bool_with_false (l : List RegoValue)
    (hb : ∀ v ∈ l, v.isBool = true) (hf : RegoValue.bool false ∈ l) :
    regoExpressionsDecision l = (false, none) := by
  induction l with
  | nil => cases hf
  | cons v rest ih =>
    cases v with
    | bool b =>
      cases b with
      | false => simp [regoExpressionsDecision]
      | true =>
        have hf' : RegoValue.bool false ∈ rest := by
          rcases List.mem_cons.mp hf with h | h
          · exact absurd h (by simp)
          · exact h
        simpa [regoExpressionsDecision] using
          ih (fun v hv => hb v (List.mem_cons_of_mem _ hv)) hf'
    | nonBoolean =>
      exact absurd (hb _ (List.mem_cons_self _ _)) (by simp [RegoValue.isBool])

/-- When some value is non-boolean and no value is the boolean `false`,
the scan is the `decision is not a boolean` error. -/
theorem regoExpressionsDecision_nonBoolean (l : List RegoValue)
    (hn : RegoValue.nonBoolean ∈ l) (hf : RegoValue.bool false ∉ l) :
    regoExpressionsDecision l = (false, some "decision is not a boolean") := by
  induction l with
  | nil => cases hn
  | cons v rest ih =>
    cases v with
    | bool b =>
      cases b with
      | false => exact absurd (List.mem_cons_self _ _) hf
      | true =>
        have hn' : RegoValue.nonBoolean ∈ rest := by
          rcases List.mem_cons.mp hn with h | h
          · exact absurd h (by simp)
          · exact h
        simpa [regoExpressionsDecision] using
          ih hn' (fun hmem => hf (List.mem_cons_of_mem _ hmem))
    | nonBoolean => simp [regoExpressionsDecision]

/-! ## Claim theorems: policy layer -/

/-- C10: `NoOpPolicyChecker.Check` returns `(true, nil)` for every
combination of organisation, namespace, project, command and requester,
consulting no policy provider and no team membership. -/
theorem noOp_checker_always_allows (a b c d e : String) :
    NoOpPolicyChecker.Check a b c d e = (true, none) := rfl

/-- C3: the claim says a `GetPolicy` error is returned by
`DiggerPolicyChecker.Check` and never converted into the empty-policy
grant. The source drops that error (the `err` of line 110 is reassigned at
line 111 before the check at line 112), so with a failed policy fetch
(`GetPolicy` returned `("", err)`) and a successful team lookup, `Check`
falls into the empty-policy branch and grants: it evaluates to
`(true, nil)` at this failing input, contradicting the claim. -/
theorem check_policy_fetch_error_still_grants :
    DiggerPolicyChecker.Check "gh-org" "ns" "prj" "digger plan" "alice"
        ("", some "connection refused") (["devs"], none) none []
      = (true, none) := rfl

/-- C4: whenever `GetPolicy` succeeds with the empty policy text and the
team lookup succeeds (so a fact set exists), `Check` returns `(true, nil)`
for every fact set, independently of the engine outcome parameters — the
engine is never consulted on this path. -/
theorem check_empty_policy_grants (gh ns prj cmd req : String) (teams : List String)
    (prepareRes : Option String) (evalResults : List (List RegoValue)) :
    DiggerPolicyChecker.Check gh ns prj cmd req ("", none) (teams, none) prepareRes evalResults
      = (true, none) := rfl

/-- C7: whenever the CI-service team lookup fails, `Check` returns
`(false, that error)`, whatever the policy fetch and engine outcomes — the
decision defaults to denied, never to allowed. -/
theorem check_team_fetch_error_denies (gh ns prj cmd req e : String)
    (getPolicyRes : String × Option String) (teams : List String)
    (prepareRes : Option String) (evalResults : List (List RegoValue)) :
    DiggerPolicyChecker.Check gh ns prj cmd req getPolicyRes (teams, some e) prepareRes evalResults
      = (false, some e) := rfl

/-- C5: for a non-empty policy evaluated by the engine inside `Check`
(successful fetch, team lookup and query preparation; `exprs` the
expression values of the engine's first result): authorization is
`(true, nil)` iff the list is non-empty and every element is the boolean
`true`; an empty list yields `(false, error "no result found")`; an
all-boolean list containing `false` yields `(false, nil)`; and a list
containing a non-boolean (and no boolean `false`, which the scan would
report first) yields `(false, error "decision is not a boolean")`. -/
theorem check_engine_decision_rule (gh ns prj cmd req policy : String)
    (teams : List String) (exprs : List RegoValue) (hpol : policy ≠ "") :
    (DiggerPolicyChecker.Check gh ns prj cmd req (policy, none) (teams, none) none [exprs]
        = (true, none) ↔ exprs ≠ [] ∧ ∀ v ∈ exprs, v = RegoValue.bool true) ∧
    (exprs = [] →
      DiggerPolicyChecker.Check gh ns prj cmd req (policy, none) (teams, none) none [exprs]
        = (false, some "no result found")) ∧
    ((∀ v ∈ exprs, v.isBool = true) → RegoValue.bool false ∈ exprs →
      DiggerPolicyChecker.Check gh ns prj cmd req (policy, none) (teams, none) none [exprs]
        = (false, none)) ∧
    (RegoValue.nonBoolean ∈ exprs → RegoValue.bool false ∉ exprs →
      DiggerPolicyChecker.Check gh ns prj cmd req (policy, none) (teams, none) none [exprs]
        = (false, some "decision is not a boolean")) := by
  have hdef : DiggerPolicyChecker.Check gh ns prj cmd req (policy, none) (teams, none) none [exprs]
      = regoResultsDecision [exprs] := by
    simp [DiggerPolicyChecker.Check, hpol]
  refine ⟨?_, ?_, ?_, ?_⟩
  · rw [hdef]
    by_cases he : exprs = []
    · subst he; simp [regoResultsDecision]
    · simp [regoResultsDecision, he, regoExpressionsDecision_eq_true_iff]
  · intro he
    subst he
    rw [hdef]
    simp [regoResultsDecision]
  · intro hb hf
    have he : exprs ≠ [] := by rintro rfl; cases hf
    rw [hdef]
    simp [regoResultsDecision, he,
      regoExpressionsDecision_all_bool_with_false exprs hb hf]
  · intro hn hf
    have he : exprs ≠ [] := by rintro rfl; cases hn
    rw [hdef]
    simp [regoResultsDecision, he,
      regoExpressionsDecision_nonBoolean exprs hn hf]

/-- Witness for C5: the decision rule instantiated at a concrete non-empty
policy and the single expression list `[true]`. -/
theorem check_engine_decision_rule_witness :
    (DiggerPolicyChecker.Check "gh-org" "ns" "prj" "digger plan" "alice"
        ("package digger", none) (["ops"], none) none [[RegoValue.bool true]]
        = (true, none) ↔
        [RegoValue.bool true] ≠ [] ∧ ∀ v ∈ [RegoValue.bool true], v = RegoValue.bool true) ∧
    ([RegoValue.bool true] = ([] : List RegoValue) →
      DiggerPolicyChecker.Check "gh-org" "ns" "prj" "digger plan" "alice"
        ("package digger", none) (["ops"], none) none [[RegoValue.bool true]]
        = (false, some "no result found")) ∧
    ((∀ v ∈ [RegoValue.bool true], v.isBool = true) →
      RegoValue.bool false ∈ [RegoValue.bool true] →
      DiggerPolicyChecker.Check "gh-org" "ns" "prj" "digger plan" "alice"
        ("package digger", none) (["ops"], none) none [[RegoValue.bool true]]
        = (false, none)) ∧
    (RegoValue.nonBoolean ∈ [RegoValue.bool true] →
      RegoValue.bool false ∉ [RegoValue.bool true] →
      DiggerPolicyChecker.Check "gh-org" "ns" "prj" "digger plan" "alice"
        ("package digger", none) (["ops"], none) none [[RegoValue.bool true]]
        = (false, some "decision is not a boolean")) :=
  check_engine_decision_rule "gh-org" "ns" "prj" "digger plan" "alice"
    "package digger" ["ops"] [RegoValue.bool true] (by decide)

/-- C6: the two-level policy fallback of `GetPolicy`: a project-level 200
returns its body verbatim with no error and independently of the
organisation fetch; project 404 then organisation 200 returns the
organisation body; both 404 return the empty string with no error; and a
status other than 200/404 at either level is an error carrying that status
and body. -/
theorem getPolicy_two_level_fallback (projBody orgBody : String)
    (orgFetch : FetchResult) (ps os : Nat)
    (hps200 : ps ≠ 200) (hps404 : ps ≠ 404) (hos200 : os ≠ 200) (hos404 : os ≠ 404) :
    (DiggerHttpPolicyProvider.GetPolicy (.response 200 projBody) orgFetch
      = (projBody, none)) ∧
    (DiggerHttpPolicyProvider.GetPolicy (.response 404 projBody) (.response 200 orgBody)
      = (orgBody, none)) ∧
    (DiggerHttpPolicyProvider.GetPolicy (.response 404 projBody) (.response 404 orgBody)
      = ("", none)) ∧
    (DiggerHttpPolicyProvider.GetPolicy (.response ps projBody) orgFetch
      = ("", some ("unexpected response while fetching org policy: "
          ++ projBody ++ " code " ++ toString ps))) ∧
    (DiggerHttpPolicyProvider.GetPolicy (.response 404 projBody) (.response os orgBody)
      = ("", some ("unexpected response while fetching organisation policy: "
          ++ orgBody ++ ", code " ++ toString os))) := by
  refine ⟨rfl, rfl, rfl, ?_, ?_⟩
  · simp [DiggerHttpPolicyProvider.GetPolicy, hps200, hps404]
  · simp [DiggerHttpPolicyProvider.GetPolicy, hos200, hos404]

/-- Witness for C6: the fallback behaviour at concrete bodies, a concrete
organisation fetch, and the statuses 500 and 503. -/
theorem getPolicy_two_level_fallback_witness :
    (DiggerHttpPolicyProvider.GetPolicy (.response 200 "proj-policy") (.response 404 "")
      = ("proj-policy", none)) ∧
    (DiggerHttpPolicyProvider.GetPolicy (.response 404 "proj-policy") (.response 200 "org-policy")
      = ("org-policy", none)) ∧
    (DiggerHttpPolicyProvider.GetPolicy (.response 404 "proj-policy") (.response 404 "org-policy")
      = ("", none)) ∧
    (DiggerHttpPolicyProvider.GetPolicy (.response 500 "proj-policy") (.response 404 "")
      = ("", some ("unexpected response while fetching org policy: "
          ++ "proj-policy" ++ " code " ++ toString (500 : Nat)))) ∧
    (DiggerHttpPolicyProvider.GetPolicy (.response 404 "proj-policy") (.response 503 "org-policy")
      = ("", some ("unexpected response while fetching organisation policy: "
          ++ "org-policy" ++ ", code " ++ toString (503 : Nat)))) :=
  getPolicy_two_level_fallback "proj-policy" "org-policy" (.response 404 "") 500 503
    (by decide) (by decide) (by decide) (by decide)

/-! ## Claim theorems: event router -/

/-- Folding the matched-phrase appends equals appending the flat map of
the filtered vocabulary. -/
theorem foldl_matched_append (text : String) (projects : List Project) :
    ∀ (vocab : List String) (acc : List ProjectCommand),
      vocab.foldl
        (fun acc command =>
          if strContains text command then
            acc ++ projects.map fun p =>
              ⟨p.name, p.dir, p.workspace, p.terragrunt, [command]⟩
          else acc) acc
      = acc ++ (vocab.filter fun c => strContains text c).flatMap
          (fun c => projects.map fun p =>
            ⟨p.name, p.dir, p.workspace, p.terragrunt, [c]⟩) := by
  intro vocab
  induction vocab with
  | nil => intro acc; simp
  | cons c rest ih =>
    intro acc
    by_cases h : strContains text c
    · simp [h, ih, List.filter_cons, List.append_assoc]
    · simp [h, ih, List.filter_cons]

/-- C8: the lifecycle routing of `ConvertGitLabEventToCommands`: `Opened`
maps each impacted project to its `OnCommitToDefault` commands, `Updated`
to `OnPullRequestPushed`, `Closed` to `OnPullRequestClosed`, each emitted
`ProjectCommand` preserving the project's name, dir, workspace and
terragrunt flag; and any event type outside the four supported constants
yields the `unsupported GitLab event type` error with an empty command
list. -/
theorem convert_lifecycle_routing (eventType diggerCommand : String)
    (projects : List Project)
    (h1 : eventType ≠ MergeRequestOpened) (h2 : eventType ≠ MergeRequestUpdated)
    (h3 : eventType ≠ MergeRequestClosed) (h4 : eventType ≠ MergeRequestComment) :
    (ConvertGitLabEventToCommands MergeRequestOpened diggerCommand projects
      = (projects.map fun p =>
          ⟨p.name, p.dir, p.workspace, p.terragrunt,
            p.workflowConfiguration.onCommitToDefault⟩, none)) ∧
    (ConvertGitLabEventToCommands MergeRequestUpdated diggerCommand projects
      = (projects.map fun p =>
          ⟨p.name, p.dir, p.workspace, p.terragrunt,
            p.workflowConfiguration.onPullRequestPushed⟩, none)) ∧
    (ConvertGitLabEventToCommands MergeRequestClosed diggerCommand projects
      = (projects.map fun p =>
          ⟨p.name, p.dir, p.workspace, p.terragrunt,
            p.workflowConfiguration.onPullRequestClosed⟩, none)) ∧
    (ConvertGitLabEventToCommands eventType diggerCommand projects
      = ([], some ("unsupported GitLab event type: " ++ eventType))) := by
  refine ⟨rfl, rfl, rfl, ?_⟩
  simp only [ConvertGitLabEventToCommands, if_neg h1, if_neg h2, if_neg h3, if_neg h4]

/-- Witness for C8: the routing at one concrete project and the
unsupported event type `"push"`. -/
theorem convert_lifecycle_routing_witness :
    (ConvertGitLabEventToCommands MergeRequestOpened "" ([⟨"p1", "d1", "w1", true, ⟨["digger plan"], ["digger plan"], ["digger unlock"]⟩⟩] : List Project)
      = (([⟨"p1", "d1", "w1", true, ⟨["digger plan"], ["digger plan"], ["digger unlock"]⟩⟩] : List Project).map fun p =>
          ⟨p.name, p.dir, p.workspace, p.terragrunt,
            p.workflowConfiguration.onCommitToDefault⟩, none)) ∧
    (ConvertGitLabEventToCommands MergeRequestUpdated "" ([⟨"p1", "d1", "w1", true, ⟨["digger plan"], ["digger plan"], ["digger unlock"]⟩⟩] : List Project)
      = (([⟨"p1", "d1", "w1", true, ⟨["digger plan"], ["digger plan"], ["digger unlock"]⟩⟩] : List Project).map fun p =>
          ⟨p.name, p.dir, p.workspace, p.terragrunt,
            p.workflowConfiguration.onPullRequestPushed⟩, none)) ∧
    (ConvertGitLabEventToCommands MergeRequestClosed "" ([⟨"p1", "d1", "w1", true, ⟨["digger plan"], ["digger plan"], ["digger unlock"]⟩⟩] : List Project)
      = (([⟨"p1", "d1", "w1", true, ⟨["digger plan"], ["digger plan"], ["digger unlock"]⟩⟩] : List Project).map fun p =>
          ⟨p.name, p.dir, p.workspace, p.terragrunt,
            p.workflowConfiguration.onPullRequestClosed⟩, none)) ∧
    (ConvertGitLabEventToCommands "push" "" ([⟨"p1", "d1", "w1", true, ⟨["digger plan"], ["digger plan"], ["digger unlock"]⟩⟩] : List Project)
      = ([], some ("unsupported GitLab event type: " ++ "push"))) :=
  convert_lifecycle_routing "push" "" ([⟨"p1", "d1", "w1", true, ⟨["digger plan"], ["digger plan"], ["digger unlock"]⟩⟩] : List Project)
    (by decide) (by decide) (by decide) (by decide)

/-- C9: for a comment event, `ConvertGitLabEventToCommands` scans the
fixed vocabulary in order by substring containment and emits, per matched
phrase, one `ProjectCommand` with that single phrase per impacted project,
the output ordered phrase-major then project order, with no error. When no
phrase matches, the filter is empty and so is the command list, still with
no error — and a text containing several phrases fires each of them. -/
theorem convert_comment_multi_fire (diggerCommand : String) (projects : List Project) :
    ConvertGitLabEventToCommands MergeRequestComment diggerCommand projects
      = ((supportedCommands.filter fun c => strContains diggerCommand c).flatMap
          fun c => projects.map fun p =>
            ⟨p.name, p.dir, p.workspace, p.terragrunt, [c]⟩, none) := by
  have h := foldl_matched_append diggerCommand projects supportedCommands []
  calc ConvertGitLabEventToCommands MergeRequestComment diggerCommand projects
      = (supportedCommands.foldl
          (fun acc command =>
            if strContains diggerCommand command then
              acc ++ projects.map fun p =>
                ⟨p.name, p.dir, p.workspace, p.terragrunt, [command]⟩
            else acc) [], none) := rfl
    _ = _ := by rw [h]; simp

/-! ## Helper lemmas for the orchestrator -/

/-- `lockResults` distributes over append. -/
theorem lockResults_append (a b : List OrchEvent) :
    lockResults (a ++ b) = lockResults a ++ lockResults b := by
  simp [lockResults]

/-- Appending an event that is not a lock attempt leaves the last lock
outcome unchanged. -/
theorem lastLockOutcome_append_of_nonlock (evs : List OrchEvent) (e : OrchEvent)
    (he : lockResults [e] = []) :
    lastLockOutcome (evs ++ [e]) = lastLockOutcome evs := by
  simp [lastLockOutcome, lockResults_append, he]

/-- Appending a lock attempt makes its result the last lock outcome. -/
theorem lastLockOutcome_append_lock (evs : List OrchEvent) (p : String) (b : Bool) :
    lastLockOutcome (evs ++ [OrchEvent.lockAttempt p b]) = b := by
  have h1 : lockResults [OrchEvent.lockAttempt p b] = [b] := rfl
  simp [lastLockOutcome, lockResults_append, h1, List.getLast?_concat]

/-- One step of the orchestrator keeps the flag equal to the outcome of
the last lock attempt recorded so far. -/
theorem runCommand_flag_eq_lastLock (oracle : Nat → Bool) (p c : String)
    (st : OrchState) (h : st.lockAcquisitionSuccess = lastLockOutcome st.events) :
    (runCommand oracle p c st).lockAcquisitionSuccess
      = lastLockOutcome (runCommand oracle p c st).events := by
  unfold runCommand
  split_ifs with h1 h2 h3 h4
  · simpa [lastLockOutcome_append_of_nonlock st.events (OrchEvent.plan p) rfl] using h
  · simpa [lastLockOutcome_append_of_nonlock st.events (OrchEvent.apply p) rfl] using h
  · simpa [lastLockOutcome_append_of_nonlock st.events (OrchEvent.unlock p) rfl] using h
  · simp [lastLockOutcome_append_lock]
  · exact h

/-- One step of the orchestrator emits no authorization event. -/
theorem runCommand_no_auth (oracle : Nat → Bool) (p c : String) (st : OrchState)
    (h : st.events.any OrchEvent.isAuthCheck = false) :
    (runCommand oracle p c st).events.any OrchEvent.isAuthCheck = false := by
  unfold runCommand
  split_ifs <;> simp_all [List.any_append, OrchEvent.isAuthCheck]

/-- Any state predicate preserved by `runCommand` is preserved by the
nested project/command fold of `RunCommandsPerProject`. -/
theorem foldl_commands_preserve (P : OrchState → Prop)
    (hstep : ∀ oracle p c st, P st → P (runCommand oracle p c st))
    (oracle : Nat → Bool) (pcs : List ProjectCommand) (st : OrchState) (h : P st) :
    P (pcs.foldl
        (fun st pc => pc.commands.foldl
          (fun st c => runCommand oracle pc.projectName c st) st) st) := by
  induction pcs generalizing st with
  | nil => simpa using h
  | cons pc rest ih =>
    have hinner : ∀ (cs : List String) (st : OrchState), P st →
        P (cs.foldl (fun st c => runCommand oracle pc.projectName c st) st) := by
      intro cs
      induction cs with
      | nil => intro st hst; simpa using hst
      | cons c cs ihc => intro st hst; exact ihc _ (hstep oracle _ c st hst)
    exact ih _ (hinner pc.commands st h)

/-! ## Claim theorems: orchestrator -/

/-- C1 counterexample: the claim says the run's status is failing iff at
least one lock acquisition during the batch returned false, a failure
being sticky. In a batch with two `digger lock` commands where the first
acquisition fails and the second succeeds, the trace records a failed
acquisition, yet the run terminates successfully — the later success
overwrote the flag, refuting the claim at this input. -/
theorem runCommands_sticky_failure_counterexample :
    (RunCommandsPerProject (fun n => n == 1)
        [⟨"prj", "dir", "default", false, ["digger lock", "digger lock"]⟩]).2 = true ∧
    OrchEvent.lockAttempt "prj" false ∈
      (RunCommandsPerProject (fun n => n == 1)
        [⟨"prj", "dir", "default", false, ["digger lock", "digger lock"]⟩]).1 := by
  constructor
  · rfl
  · decide

/-- C1 (amended): the run terminates with a failing status iff the last
`digger lock` acquisition executed in the batch returned false: each
acquisition overwrites the `lockAcquisitionSuccess` flag (a failure is not
sticky), the flag starts as true, and the terminal status is failing
exactly when the final flag — the outcome of the last lock attempt in the
trace, true when there is none — is false. -/
theorem runCommands_status_eq_last_lock (oracle : Nat → Bool)
    (cmds : List ProjectCommand) :
    (RunCommandsPerProject oracle cmds).2
      = lastLockOutcome (RunCommandsPerProject oracle cmds).1 := by
  have h := foldl_commands_preserve
    (fun st => st.lockAcquisitionSuccess = lastLockOutcome st.events)
    (fun oracle p c st h => runCommand_flag_eq_lastLock oracle p c st h)
    oracle cmds ⟨[], true, 0⟩ rfl
  simpa [RunCommandsPerProject] using h

/-- C2 counterexample: the claim says every command is preceded by an
`Authorizer.Check` before being delegated. At this concrete input the
batch's single `digger plan` command is delegated to the executor and the
full trace is that one delegation — it contains no authorization event at
all, so the delegation happened without any prior authorization decision,
refuting the claim. -/
theorem runCommands_no_auth_counterexample :
    (RunCommandsPerProject (fun _ => true)
        [⟨"prj", "dir", "default", false, ["digger plan"]⟩]).1
      = [OrchEvent.plan "prj"] := rfl

/-- C2 (amended): `RunCommandsPerProject` performs no authorization step:
for every lock-store oracle and every batch, the run's trace contains no
authorization-check event — commands are delegated to the lock coordinator
and the external executor unconditionally. -/
theorem runCommands_no_authorization (oracle : Nat → Bool)
    (cmds : List ProjectCommand) :
    ((RunCommandsPerProject oracle cmds).1.any OrchEvent.isAuthCheck) = false := by
  have h := foldl_commands_preserve
    (fun st => st.events.any OrchEvent.isAuthCheck = false)
    (fun oracle p c st h => runCommand_no_auth oracle p c st h)
    oracle cmds ⟨[], true, 0⟩ rfl
  simpa [RunCommandsPerProject] using h
